import Mathlib

/-!
Shallow embedding of the clef-client Go library (package clefclient):
the JSON-RPC envelopes, the Go encoding/json marshaling relevant to the
struct tags in the source, the two transports (HTTP and IPC) and the
typed facade. External effects (the HTTP POST, the socket, and the
stdlib JSON decoding of inbound bytes) are passed in as explicit
environment values; everything the repository's own code computes is
embedded as Lean functions.
-/

set_option maxHeartbeats 1000000

namespace Clef

/-- A JSON value as handled by Go encoding/json for the values this client
marshals and unmarshals. Numbers are integers here, which covers every number
the client produces (the correlation id and error codes). -/
inductive Json where
  | null : Json
  | bool : Bool → Json
  | num : Int → Json
  | str : String → Json
  | arr : List Json → Json
  | obj : List (String × Json) → Json
deriving Repr

/-- Decimal digit character for d mod 10. -/
def digitChar (d : Nat) : Char := Char.ofNat (48 + d % 10)

/-- Decimal digits of a natural number, most significant first; empty for 0. -/
def natDigits : Nat → List Char
  | 0 => []
  | n + 1 => natDigits ((n + 1) / 10) ++ [digitChar ((n + 1) % 10)]
decreasing_by exact Nat.div_lt_self (Nat.succ_pos n) (by omega)

/-- Decimal rendering of a natural number, as Go strconv produces it. -/
def natChars (n : Nat) : List Char := if n = 0 then ['0'] else natDigits n

/-- Decimal rendering of an integer. -/
def intChars : Int → List Char
  | Int.ofNat n => natChars n
  | Int.negSucc m => '-' :: natChars (m + 1)

/-- Lowercase hexadecimal digit character for d < 16. -/
def hexChar (d : Nat) : Char :=
  if d < 10 then Char.ofNat (48 + d) else Char.ofNat (87 + d)

/-- JSON escaping of one character as Go encoding/json performs it inside
string literals: quote, backslash and the common control characters get
two-character escapes, the HTML-sensitive characters and the line separators
U+2028/U+2029 get unicode escapes, remaining control characters get u00XX. -/
def escapeChar (c : Char) : List Char :=
  if c = '"' then ['\\', '"']
  else if c = '\\' then ['\\', '\\']
  else if c = '\n' then ['\\', 'n']
  else if c = '\r' then ['\\', 'r']
  else if c = '\t' then ['\\', 't']
  else if c = '<' then ['\\', 'u', '0', '0', '3', 'c']
  else if c = '>' then ['\\', 'u', '0', '0', '3', 'e']
  else if c = '&' then ['\\', 'u', '0', '0', '2', '6']
  else if c.toNat = 8232 then ['\\', 'u', '2', '0', '2', '8']
  else if c.toNat = 8233 then ['\\', 'u', '2', '0', '2', '9']
  else if c.toNat < 32 then
    ['\\', 'u', '0', '0', hexChar (c.toNat / 16), hexChar (c.toNat % 16)]
  else [c]

/-- A JSON string literal: quoted, content escaped character by character. -/
def strChars (s : String) : List Char :=
  '"' :: ((s.data.map escapeChar).flatten ++ ['"'])

mutual

/-- Serialization of a JSON value to its byte (character) sequence, as
Go json.Marshal renders the values this client builds. -/
def jsonChars : Json → List Char
  | Json.null => ['n', 'u', 'l', 'l']
  | Json.bool true => ['t', 'r', 'u', 'e']
  | Json.bool false => ['f', 'a', 'l', 's', 'e']
  | Json.num i => intChars i
  | Json.str s => strChars s
  | Json.arr es => '[' :: (arrChars es ++ [']'])
  | Json.obj ms => '{' :: (objChars ms ++ ['}'])

/-- Comma-separated rendering of array elements. -/
def arrChars : List Json → List Char
  | [] => []
  | [e] => jsonChars e
  | e :: e2 :: es => jsonChars e ++ ',' :: arrChars (e2 :: es)

/-- Comma-separated rendering of object members, key colon value. -/
def objChars : List (String × Json) → List Char
  | [] => []
  | [(k, v)] => strChars k ++ ':' :: jsonChars v
  | (k, v) :: m :: ms => strChars k ++ ':' :: jsonChars v ++ ',' :: objChars (m :: ms)

end

/-- Digit characters are never a newline. -/
theorem digitChar_ne_nl (d : Nat) : digitChar d ≠ '\n' := by
  unfold digitChar
  have h : d % 10 < 10 := Nat.mod_lt _ (by omega)
  generalize d % 10 = m at h
  interval_cases m <;> decide

/-- The digit expansion of a natural number contains no newline. -/
theorem natDigits_no_nl (n : Nat) : '\n' ∉ natDigits n := by
  induction n using Nat.strong_induction_on with
  | _ n ih =>
    match n with
    | 0 => simp [natDigits]
    | m + 1 =>
      rw [natDigits]
      intro hmem
      rcases List.mem_append.mp hmem with h | h
      · exact ih ((m + 1) / 10) (Nat.div_lt_self (Nat.succ_pos m) (by omega)) h
      · rcases List.mem_singleton.mp h with h
        exact digitChar_ne_nl _ h.symm

/-- Rendered naturals contain no newline. -/
theorem natChars_no_nl (n : Nat) : '\n' ∉ natChars n := by
  unfold natChars
  split
  · decide
  · exact natDigits_no_nl n

/-- Rendered integers contain no newline. -/
theorem intChars_no_nl (i : Int) : '\n' ∉ intChars i := by
  cases i with
  | ofNat n => exact natChars_no_nl n
  | negSucc m =>
    intro hmem
    rcases List.mem_cons.mp hmem with h | h
    · exact absurd h (by decide)
    · exact natChars_no_nl _ h

/-- Hexadecimal digit characters (for values below 16) are never a newline. -/
theorem hexChar_ne_nl (d : Nat) (hd : d < 16) : hexChar d ≠ '\n' := by
  unfold hexChar
  interval_cases d <;> decide

/-- The escape expansion of any character contains no newline. -/
theorem escapeChar_no_nl (c : Char) : '\n' ∉ escapeChar c := by
  by_cases h1 : c = '"'
  · rw [escapeChar, if_pos h1]; decide
  by_cases h2 : c = '\\'
  · rw [escapeChar, if_neg h1, if_pos h2]; decide
  by_cases h3 : c = '\n'
  · rw [escapeChar, if_neg h1, if_neg h2, if_pos h3]; decide
  by_cases h4 : c = '\r'
  · rw [escapeChar, if_neg h1, if_neg h2, if_neg h3, if_pos h4]; decide
  by_cases h5 : c = '\t'
  · rw [escapeChar, if_neg h1, if_neg h2, if_neg h3, if_neg h4, if_pos h5]; decide
  by_cases h6 : c = '<'
  · rw [escapeChar, if_neg h1, if_neg h2, if_neg h3, if_neg h4, if_neg h5,
      if_pos h6]
    decide
  by_cases h7 : c = '>'
  · rw [escapeChar, if_neg h1, if_neg h2, if_neg h3, if_neg h4, if_neg h5,
      if_neg h6, if_pos h7]
    decide
  by_cases h8 : c = '&'
  · rw [escapeChar, if_neg h1, if_neg h2, if_neg h3, if_neg h4, if_neg h5,
      if_neg h6, if_neg h7, if_pos h8]
    decide
  by_cases h9 : c.toNat = 8232
  · rw [escapeChar, if_neg h1, if_neg h2, if_neg h3, if_neg h4, if_neg h5,
      if_neg h6, if_neg h7, if_neg h8, if_pos h9]
    decide
  by_cases h10 : c.toNat = 8233
  · rw [escapeChar, if_neg h1, if_neg h2, if_neg h3, if_neg h4, if_neg h5,
      if_neg h6, if_neg h7, if_neg h8, if_neg h9, if_pos h10]
    decide
  by_cases h11 : c.toNat < 32
  · intro hmem
    rw [escapeChar, if_neg h1, if_neg h2, if_neg h3, if_neg h4, if_neg h5,
      if_neg h6, if_neg h7, if_neg h8, if_neg h9, if_neg h10, if_pos h11] at hmem
    have hdiv : c.toNat / 16 < 16 := by omega
    have hmod : c.toNat % 16 < 16 := Nat.mod_lt _ (by omega)
    simp only [List.mem_cons, List.not_mem_nil, or_false] at hmem
    rcases hmem with h | h | h | h | h | h
    · exact absurd h (by decide)
    · exact absurd h (by decide)
    · exact absurd h (by decide)
    · exact absurd h (by decide)
    · exact hexChar_ne_nl _ hdiv h.symm
    · exact hexChar_ne_nl _ hmod h.symm
  · intro hmem
    rw [escapeChar, if_neg h1, if_neg h2, if_neg h3, if_neg h4, if_neg h5,
      if_neg h6, if_neg h7, if_neg h8, if_neg h9, if_neg h10, if_neg h11] at hmem
    rcases List.mem_singleton.mp hmem with rfl
    exact h3 rfl

/-- Rendered JSON string literals contain no newline. -/
theorem strChars_no_nl (s : String) : '\n' ∉ strChars s := by
  unfold strChars
  intro hmem
  rcases List.mem_cons.mp hmem with h | h
  · exact absurd h (by decide)
  · rcases List.mem_append.mp h with h | h
    · rcases List.mem_flatten.mp h with ⟨l, hl, hcl⟩
      rcases List.mem_map.mp hl with ⟨c, _, rfl⟩
      exact escapeChar_no_nl c hcl
    · exact absurd h (by decide)

mutual

/-- Serialized JSON values contain no raw newline byte: every newline inside
a string value is escaped. -/
theorem jsonChars_no_nl : ∀ (j : Json), '\n' ∉ jsonChars j
  | Json.null => by simp [jsonChars]
  | Json.bool true => by simp [jsonChars]
  | Json.bool false => by simp [jsonChars]
  | Json.num i => by simpa [jsonChars] using intChars_no_nl i
  | Json.str s => by simpa [jsonChars] using strChars_no_nl s
  | Json.arr es => by
    have h := arrChars_no_nl es
    intro hmem
    rw [jsonChars] at hmem
    simp only [List.mem_cons, List.mem_append, List.mem_singleton] at hmem
    rcases hmem with hc | hc | hc
    · exact absurd hc (by decide)
    · exact h hc
    · exact absurd hc (by decide)
  | Json.obj ms => by
    have h := objChars_no_nl ms
    intro hmem
    rw [jsonChars] at hmem
    simp only [List.mem_cons, List.mem_append, List.mem_singleton] at hmem
    rcases hmem with hc | hc | hc
    · exact absurd hc (by decide)
    · exact h hc
    · exact absurd hc (by decide)

/-- Serialized JSON array bodies contain no raw newline byte. -/
theorem arrChars_no_nl : ∀ (es : List Json), '\n' ∉ arrChars es
  | [] => by simp [arrChars]
  | [e] => by simpa [arrChars] using jsonChars_no_nl e
  | e :: e2 :: es => by
    have h1 := jsonChars_no_nl e
    have h2 := arrChars_no_nl (e2 :: es)
    intro hmem
    rw [arrChars] at hmem
    simp only [List.mem_append, List.mem_cons] at hmem
    rcases hmem with hc | hc | hc
    · exact h1 hc
    · exact absurd hc (by decide)
    · exact h2 hc

/-- Serialized JSON object bodies contain no raw newline byte. -/
theorem objChars_no_nl : ∀ (ms : List (String × Json)), '\n' ∉ objChars ms
  | [] => by simp [objChars]
  | [(k, v)] => by
    have hk := strChars_no_nl k
    have hv := jsonChars_no_nl v
    intro hmem
    rw [objChars] at hmem
    simp only [List.mem_append, List.mem_cons] at hmem
    rcases hmem with hc | hc | hc
    · exact hk hc
    · exact absurd hc (by decide)
    · exact hv hc
  | (k, v) :: m :: ms => by
    have hk := strChars_no_nl k
    have hv := jsonChars_no_nl v
    have hr := objChars_no_nl (m :: ms)
    intro hmem
    rw [objChars] at hmem
    simp only [List.mem_append, List.mem_cons, or_assoc] at hmem
    rcases hmem with hc | hc | hc | hc | hc
    · exact hk hc
    · exact absurd hc (by decide)
    · exact hv hc
    · exact absurd hc (by decide)
    · exact hr hc

end

/-- A JSON-RPC error record, from clef_client.go (type rpcError). -/
structure rpcError where
  Code : Int
  Message : String
deriving Repr, DecidableEq

/-- A JSON-RPC request envelope, from clef_client.go (type rpcRequest). The Go
Params field has type interface judged at marshal time; a Go nil is modeled as
Json.null, exactly what json.Marshal emits for it under the plain params tag. -/
structure rpcRequest where
  Jsonrpc : String
  Method : String
  Params : Json
  ID : Int
deriving Repr

/-- A JSON-RPC response envelope, from clef_client.go (type rpcResponse). The
Go Result field is a json.RawMessage: none models a nil RawMessage (the result
member absent from the wire), some j a present result payload. -/
structure rpcResponse where
  Jsonrpc : String
  Result : Option Json
  Error : Option rpcError
  ID : Int
deriving Repr

/-- Marshaling of the request envelope per the struct tags of rpcRequest:
jsonrpc, method, params and id, all without omitempty, in declaration order. -/
def encodeRpcRequest (r : rpcRequest) : Json :=
  Json.obj [("jsonrpc", Json.str r.Jsonrpc), ("method", Json.str r.Method),
    ("params", r.Params), ("id", Json.num r.ID)]

/-- Key lookup in a decoded JSON object, with the last duplicate winning, as
Go json decoding overwrites a field on every occurrence of its key. -/
def jlookup (fs : List (String × Json)) (k : String) : Option Json :=
  fs.foldl (fun acc f => if f.1 = k then some f.2 else acc) none

/-- Key lookup on a JSON value: defined on objects, none elsewhere. -/
def Json.lookupKey : Json → String → Option Json
  | Json.obj fs, k => jlookup fs k
  | _, _ => none

/-- The member keys of a JSON object value. -/
def Json.keys : Json → List String
  | Json.obj fs => fs.map Prod.fst
  | _ => []

/-- Go json unmarshaling of a string struct field from a decoded object: a
missing key or a null leaves the zero value, a string is taken, anything
else is a type error. -/
def getStrField (fs : List (String × Json)) (k : String) : Except String String :=
  match jlookup fs k with
  | none => Except.ok ""
  | some Json.null => Except.ok ""
  | some (Json.str s) => Except.ok s
  | some _ => Except.error ("json: cannot unmarshal value into string field " ++ k)

/-- Go json unmarshaling of an int struct field from a decoded object. -/
def getIntField (fs : List (String × Json)) (k : String) : Except String Int :=
  match jlookup fs k with
  | none => Except.ok 0
  | some Json.null => Except.ok 0
  | some (Json.num n) => Except.ok n
  | some _ => Except.error ("json: cannot unmarshal value into int field " ++ k)

/-- Go json unmarshaling of a decoded JSON value into the rpcRequest struct:
used by the round-trip statement (the test doubles decode requests this way).
A top-level null is a no-op leaving the zero struct; the params member lands
in an interface value, so it is kept verbatim, nil when absent. -/
def decodeRpcRequest : Json → Except String rpcRequest
  | Json.obj fs => do
    let jr ← getStrField fs "jsonrpc"
    let me ← getStrField fs "method"
    let pa := (jlookup fs "params").getD Json.null
    let i ← getIntField fs "id"
    Except.ok ⟨jr, me, pa, i⟩
  | Json.null => Except.ok ⟨"", "", Json.null, 0⟩
  | _ => Except.error "json: cannot unmarshal value into struct rpcRequest"

/-- An Ethereum transaction to sign, from models.go (type Transaction). -/
structure Transaction where
  From : String
  To : String
  Gas : String
  GasPrice : String
  Value : String
  Nonce : String
  Data : String
deriving Repr

/-- Parameters for account signing of plain data, from models.go. -/
structure SignDataRequest where
  Address : String
  Data : String
deriving Repr

/-- Parameters for signing EIP-712 typed data, from models.go. The TypedData
field is a json.RawMessage carried opaquely. -/
structure TypedDataRequest where
  Address : String
  TypedData : Json
  RawVersion : String
deriving Repr

/-- The inner decoded-transaction record of a signing response, from the
anonymous Tx struct in models.go. -/
structure SignTxInner where
  Nonce : String
  GasPrice : String
  Gas : String
  To : String
  Value : String
  Input : String
  V : String
  R : String
  S : String
  Hash : String
deriving Repr, DecidableEq

/-- The response to a transaction-signing call, from models.go. -/
structure SignTxResponse where
  Raw : String
  Tx : SignTxInner
deriving Repr, DecidableEq

/-- The response to a data-signing call, from models.go. -/
structure SignDataResponse where
  Signature : String
deriving Repr, DecidableEq

/-- The response to a version query, from models.go. -/
structure VersionResponse where
  Version : String
deriving Repr, DecidableEq

/-- Parameters for signature recovery, from models.go. -/
structure EcRecoverRequest where
  Data : String
  Signature : String
deriving Repr

/-- The response to a signature-recovery call, from models.go. -/
structure EcRecoverResponse where
  Address : String
deriving Repr, DecidableEq

/-- An omitempty string member: present exactly when the value is non-zero
(non-empty), per the Go struct tags with omitempty. -/
def optField (k : String) (v : String) : List (String × Json) :=
  if v = "" then [] else [(k, Json.str v)]

/-- Marshaling of Transaction per its struct tags: from and to always
present, gas, gasPrice, value, nonce and data present only when non-empty. -/
def encodeTransaction (t : Transaction) : Json :=
  Json.obj ([("from", Json.str t.From), ("to", Json.str t.To)]
    ++ optField "gas" t.Gas ++ optField "gasPrice" t.GasPrice
    ++ optField "value" t.Value ++ optField "nonce" t.Nonce
    ++ optField "data" t.Data)

/-- Marshaling of SignDataRequest per its struct tags. -/
def encodeSignDataRequest (r : SignDataRequest) : Json :=
  Json.obj [("address", Json.str r.Address), ("data", Json.str r.Data)]

/-- Marshaling of TypedDataRequest per its struct tags: raw_version carries
omitempty, the typed-data payload is emitted verbatim under data. -/
def encodeTypedDataRequest (r : TypedDataRequest) : Json :=
  Json.obj ([("address", Json.str r.Address), ("data", r.TypedData)]
    ++ optField "raw_version" r.RawVersion)

/-- Marshaling of EcRecoverRequest per its struct tags. -/
def encodeEcRecoverRequest (r : EcRecoverRequest) : Json :=
  Json.obj [("data", Json.str r.Data), ("sig", Json.str r.Signature)]

/-- Go json.Unmarshal of a result payload into a string, as NewAccount does:
a nil RawMessage is an unmarshal error, null leaves the zero value. -/
def unmarshalString : Option Json → Except String String
  | none => Except.error "unexpected end of JSON input"
  | some Json.null => Except.ok ""
  | some (Json.str s) => Except.ok s
  | some _ => Except.error "json: cannot unmarshal value into Go value of type string"

/-- Go json.Unmarshal of one array element into a string slot. -/
def unmarshalStringElem : Json → Except String String
  | Json.null => Except.ok ""
  | Json.str s => Except.ok s
  | _ => Except.error "json: cannot unmarshal value into Go value of type string"

/-- Go json.Unmarshal of a result payload into a string slice, as
ListAccounts does: null yields the nil slice. -/
def unmarshalStringList : Option Json → Except String (List String)
  | none => Except.error "unexpected end of JSON input"
  | some Json.null => Except.ok []
  | some (Json.arr es) => es.mapM unmarshalStringElem
  | some _ => Except.error "json: cannot unmarshal value into Go value of type []string"

/-- The zero value of the inner transaction record. -/
def SignTxInner.zero : SignTxInner := ⟨"", "", "", "", "", "", "", "", "", ""⟩

/-- Go json.Unmarshal of the inner tx member. -/
def unmarshalSignTxInner : Json → Except String SignTxInner
  | Json.null => Except.ok SignTxInner.zero
  | Json.obj fs => do
    let n ← getStrField fs "nonce"
    let gp ← getStrField fs "gasPrice"
    let g ← getStrField fs "gas"
    let t ← getStrField fs "to"
    let vl ← getStrField fs "value"
    let inp ← getStrField fs "input"
    let v ← getStrField fs "v"
    let r ← getStrField fs "r"
    let s ← getStrField fs "s"
    let h ← getStrField fs "hash"
    Except.ok ⟨n, gp, g, t, vl, inp, v, r, s, h⟩
  | _ => Except.error "json: cannot unmarshal value into struct field tx"

/-- Go json.Unmarshal of a result payload into SignTxResponse. -/
def unmarshalSignTx : Option Json → Except String SignTxResponse
  | none => Except.error "unexpected end of JSON input"
  | some Json.null => Except.ok ⟨"", SignTxInner.zero⟩
  | some (Json.obj fs) => do
    let raw ← getStrField fs "raw"
    let tx ← match jlookup fs "tx" with
      | none => Except.ok SignTxInner.zero
      | some v => unmarshalSignTxInner v
    Except.ok ⟨raw, tx⟩
  | some _ => Except.error "json: cannot unmarshal value into struct SignTxResponse"

/-- Go json.Unmarshal of a result payload into SignDataResponse. -/
def unmarshalSignData : Option Json → Except String SignDataResponse
  | none => Except.error "unexpected end of JSON input"
  | some Json.null => Except.ok ⟨""⟩
  | some (Json.obj fs) => do
    let s ← getStrField fs "signature"
    Except.ok ⟨s⟩
  | some _ => Except.error "json: cannot unmarshal value into struct SignDataResponse"

/-- Go json.Unmarshal of a result payload into VersionResponse. -/
def unmarshalVersion : Option Json → Except String VersionResponse
  | none => Except.error "unexpected end of JSON input"
  | some Json.null => Except.ok ⟨""⟩
  | some (Json.obj fs) => do
    let s ← getStrField fs "version"
    Except.ok ⟨s⟩
  | some _ => Except.error "json: cannot unmarshal value into struct VersionResponse"

/-- Go json.Unmarshal of a result payload into EcRecoverResponse. -/
def unmarshalEcRecover : Option Json → Except String EcRecoverResponse
  | none => Except.error "unexpected end of JSON input"
  | some Json.null => Except.ok ⟨""⟩
  | some (Json.obj fs) => do
    let s ← getStrField fs "address"
    Except.ok ⟨s⟩
  | some _ => Except.error "json: cannot unmarshal value into struct EcRecoverResponse"

/-- The outcome http.Post hands back when it does not itself fail, paired with
what the stdlib JSON decoder makes of the body: the status code (which the
transport code never reads) and the decode outcome of the response body. The
decoder is stdlib code outside the repository, so its verdict on the body is
an environment input here. Go error values are represented by their message
strings throughout this development; their dynamic type and sentinel
identity, which Go additionally carries, are outside this value-level model,
and every statement proved here depends on errors only at message level. -/
structure httpPostOutcome where
  StatusCode : Nat
  BodyDecode : Except String rpcResponse
deriving Repr

/-- The httpTransport.call method from transport.go: marshal the envelope
with version 2.0 and id 1, POST the bytes, decode the body as a response
envelope, and fail with the error record's message when one is populated.
The environment function post models http.Post applied to the posted body;
the first component of the result is the body this call posts, returned for
observability. Marshaling of the model's Json values is total, so the Go
branch for a Marshal error is unreachable here. -/
def httpTransport.call (post : List Char → Except String httpPostOutcome)
    (method : String) (params : Json) : List Char × Except String rpcResponse :=
  let reqBody := jsonChars (encodeRpcRequest ⟨"2.0", method, params, 1⟩)
  (reqBody,
    match post reqBody with
    | Except.error e => Except.error e
    | Except.ok out =>
      match out.BodyDecode with
      | Except.error e => Except.error e
      | Except.ok rpcResp =>
        match rpcResp.Error with
        | some err => Except.error err.Message
        | none => Except.ok rpcResp)

/-- The rpcClient.call method from clef_client.go, embedded on its own from
its own source text: marshal the envelope, POST it, decode the body, and turn
a populated error record into a failure carrying its message. -/
def rpcClient.call (post : List Char → Except String httpPostOutcome)
    (method : String) (params : Json) : List Char × Except String rpcResponse :=
  let reqBody := jsonChars (encodeRpcRequest ⟨"2.0", method, params, 1⟩)
  (reqBody,
    match post reqBody with
    | Except.error e => Except.error e
    | Except.ok out =>
      match out.BodyDecode with
      | Except.error e => Except.error e
      | Except.ok rpcResp =>
        match rpcResp.Error with
        | some err => Except.error err.Message
        | none => Except.ok rpcResp)

/-- The observable state of the IPC connection for one call: whether the
write fails, and what the stdlib JSON decoder reads off the inbound stream.
Both are external effects, supplied by the environment; as with the HTTP
side, error values are carried as their message strings. -/
structure ipcConn where
  WriteError : Option String
  RecvDecode : Except String rpcResponse
deriving Repr

/-- The ipcTransport.call method from transport.go: marshal the envelope with
version 2.0 and id 1, write the bytes with a newline appended to the
connection, then decode one response envelope from the same connection and
fail with the error record's message when one is populated. The first
component of the result is the exact byte sequence handed to conn.Write. -/
def ipcTransport.call (conn : ipcConn) (method : String) (params : Json) :
    List Char × Except String rpcResponse :=
  let reqBody := jsonChars (encodeRpcRequest ⟨"2.0", method, params, 1⟩)
  (reqBody ++ ['\n'],
    match conn.WriteError with
    | some e => Except.error e
    | none =>
      match conn.RecvDecode with
      | Except.error e => Except.error e
      | Except.ok rpcResp =>
        match rpcResp.Error with
        | some err => Except.error err.Message
        | none => Except.ok rpcResp)

/-- The transport interface from transport.go, as seen by the facade: a call
operation from method name and params to a response envelope or an error. -/
def TransportFn : Type := String → Json → Except String rpcResponse

/-- ClefClient.NewAccount from clef_client.go: call account_new with nil
params and unmarshal the result payload into a string address. -/
def ClefClient.NewAccount (tc : TransportFn) : Except String String :=
  match tc "account_new" Json.null with
  | Except.error e => Except.error e
  | Except.ok resp => unmarshalString resp.Result

/-- ClefClient.ListAccounts from clef_client.go: call account_list with nil
params and unmarshal the result payload into a string slice. -/
def ClefClient.ListAccounts (tc : TransportFn) : Except String (List String) :=
  match tc "account_list" Json.null with
  | Except.error e => Except.error e
  | Except.ok resp => unmarshalStringList resp.Result

/-- ClefClient.SignTransaction from clef_client.go: call
account_signTransaction with the transaction as params and unmarshal the
result payload into a SignTxResponse. -/
def ClefClient.SignTransaction (tc : TransportFn) (tx : Transaction) :
    Except String SignTxResponse :=
  match tc "account_signTransaction" (encodeTransaction tx) with
  | Except.error e => Except.error e
  | Except.ok resp => unmarshalSignTx resp.Result

/-- ClefClient.SignData from clef_client.go: call account_signData with the
request as params and unmarshal the result payload into a SignDataResponse. -/
def ClefClient.SignData (tc : TransportFn) (req : SignDataRequest) :
    Except String SignDataResponse :=
  match tc "account_signData" (encodeSignDataRequest req) with
  | Except.error e => Except.error e
  | Except.ok resp => unmarshalSignData resp.Result

/-- ClefClient.SignTypedData from clef_client.go: call account_signTypedData
with the request as params and unmarshal the result payload into a
SignDataResponse. -/
def ClefClient.SignTypedData (tc : TransportFn) (req : TypedDataRequest) :
    Except String SignDataResponse :=
  match tc "account_signTypedData" (encodeTypedDataRequest req) with
  | Except.error e => Except.error e
  | Except.ok resp => unmarshalSignData resp.Result

/-- ClefClient.EcRecover from clef_client.go: call account_ecRecover with the
request as params and unmarshal the result payload into an
EcRecoverResponse. -/
def ClefClient.EcRecover (tc : TransportFn) (req : EcRecoverRequest) :
    Except String EcRecoverResponse :=
  match tc "account_ecRecover" (encodeEcRecoverRequest req) with
  | Except.error e => Except.error e
  | Except.ok resp => unmarshalEcRecover resp.Result

/-- ClefClient.Version from clef_client.go: call account_version with nil
params and unmarshal the result payload into a VersionResponse. -/
def ClefClient.Version (tc : TransportFn) : Except String VersionResponse :=
  match tc "account_version" Json.null with
  | Except.error e => Except.error e
  | Except.ok resp => unmarshalVersion resp.Result

/-- C1: on both transports, a decoded envelope whose error record is
populated makes call fail with exactly that record's message and yield no
response value; and a transport that fails this way makes every facade
operation fail with the same error, never returning a typed result. -/
theorem call_fails_on_error_record :
    (∀ (s : Nat) (resp : rpcResponse) (err : rpcError) (method : String) (params : Json),
      resp.Error = some err →
      (httpTransport.call (fun _ => Except.ok ⟨s, Except.ok resp⟩) method params).2
        = Except.error err.Message)
    ∧ (∀ (resp : rpcResponse) (err : rpcError) (method : String) (params : Json),
      resp.Error = some err →
      (ipcTransport.call ⟨none, Except.ok resp⟩ method params).2
        = Except.error err.Message)
    ∧ (∀ (tc : TransportFn) (e : String), (∀ m p, tc m p = Except.error e) →
      ClefClient.NewAccount tc = Except.error e
      ∧ ClefClient.ListAccounts tc = Except.error e
      ∧ (∀ tx, ClefClient.SignTransaction tc tx = Except.error e)
      ∧ (∀ r, ClefClient.SignData tc r = Except.error e)
      ∧ (∀ r, ClefClient.SignTypedData tc r = Except.error e)
      ∧ (∀ r, ClefClient.EcRecover tc r = Except.error e)
      ∧ ClefClient.Version tc = Except.error e) := by
  refine ⟨?_, ?_, ?_⟩
  · intro s resp err method params herr
    simp [httpTransport.call, herr]
  · intro resp err method params herr
    simp [ipcTransport.call, herr]
  · intro tc e h
    refine ⟨?_, ?_, fun tx => ?_, fun r => ?_, fun r => ?_, fun r => ?_, ?_⟩
    · simp [ClefClient.NewAccount, h]
    · simp [ClefClient.ListAccounts, h]
    · simp [ClefClient.SignTransaction, h]
    · simp [ClefClient.SignData, h]
    · simp [ClefClient.SignTypedData, h]
    · simp [ClefClient.EcRecover, h]
    · simp [ClefClient.Version, h]

/-- C1 witness: the end-to-end unknown-account scenario on both transports,
and a facade operation over the HTTP transport with that error record. -/
theorem call_fails_on_error_record_witness :
    (httpTransport.call
        (fun _ => Except.ok ⟨200, Except.ok ⟨"2.0", none, some ⟨-32000, "unknown account"⟩, 1⟩⟩)
        "account_new" Json.null).2 = Except.error "unknown account"
    ∧ (ipcTransport.call ⟨none, Except.ok ⟨"2.0", none, some ⟨-32000, "unknown account"⟩, 1⟩⟩
        "account_new" Json.null).2 = Except.error "unknown account"
    ∧ ClefClient.NewAccount (fun _ _ => Except.error "unknown account")
        = Except.error "unknown account" :=
  ⟨call_fails_on_error_record.1 200 ⟨"2.0", none, some ⟨-32000, "unknown account"⟩, 1⟩
      ⟨-32000, "unknown account"⟩ "account_new" Json.null rfl,
    call_fails_on_error_record.2.1 ⟨"2.0", none, some ⟨-32000, "unknown account"⟩, 1⟩
      ⟨-32000, "unknown account"⟩ "account_new" Json.null rfl,
    (call_fails_on_error_record.2.2 (fun _ _ => Except.error "unknown account")
      "unknown account" (fun _ _ => rfl)).1⟩

/-- C2: each facade operation, run over a transport whose call succeeds with
a result payload whose typed decoding succeeds, returns exactly that typed
decoding; in particular NewAccount returns the decoded address string. -/
theorem facade_returns_decoded_result :
    (∀ (tc : TransportFn) (resp : rpcResponse) (v : String),
      tc "account_new" Json.null = Except.ok resp →
      unmarshalString resp.Result = Except.ok v →
      ClefClient.NewAccount tc = Except.ok v)
    ∧ (∀ (tc : TransportFn) (resp : rpcResponse) (v : List String),
      tc "account_list" Json.null = Except.ok resp →
      unmarshalStringList resp.Result = Except.ok v →
      ClefClient.ListAccounts tc = Except.ok v)
    ∧ (∀ (tc : TransportFn) (tx : Transaction) (resp : rpcResponse) (v : SignTxResponse),
      tc "account_signTransaction" (encodeTransaction tx) = Except.ok resp →
      unmarshalSignTx resp.Result = Except.ok v →
      ClefClient.SignTransaction tc tx = Except.ok v)
    ∧ (∀ (tc : TransportFn) (r : SignDataRequest) (resp : rpcResponse) (v : SignDataResponse),
      tc "account_signData" (encodeSignDataRequest r) = Except.ok resp →
      unmarshalSignData resp.Result = Except.ok v →
      ClefClient.SignData tc r = Except.ok v)
    ∧ (∀ (tc : TransportFn) (r : TypedDataRequest) (resp : rpcResponse) (v : SignDataResponse),
      tc "account_signTypedData" (encodeTypedDataRequest r) = Except.ok resp →
      unmarshalSignData resp.Result = Except.ok v →
      ClefClient.SignTypedData tc r = Except.ok v)
    ∧ (∀ (tc : TransportFn) (r : EcRecoverRequest) (resp : rpcResponse) (v : EcRecoverResponse),
      tc "account_ecRecover" (encodeEcRecoverRequest r) = Except.ok resp →
      unmarshalEcRecover resp.Result = Except.ok v →
      ClefClient.EcRecover tc r = Except.ok v)
    ∧ (∀ (tc : TransportFn) (resp : rpcResponse) (v : VersionResponse),
      tc "account_version" Json.null = Except.ok resp →
      unmarshalVersion resp.Result = Except.ok v →
      ClefClient.Version tc = Except.ok v) := by
  refine ⟨?_, ?_, ?_, ?_, ?_, ?_, ?_⟩
  · intro tc resp v h1 h2
    simp [ClefClient.NewAccount, h1, h2]
  · intro tc resp v h1 h2
    simp [ClefClient.ListAccounts, h1, h2]
  · intro tc tx resp v h1 h2
    simp [ClefClient.SignTransaction, h1, h2]
  · intro tc r resp v h1 h2
    simp [ClefClient.SignData, h1, h2]
  · intro tc r resp v h1 h2
    simp [ClefClient.SignTypedData, h1, h2]
  · intro tc r resp v h1 h2
    simp [ClefClient.EcRecover, h1, h2]
  · intro tc resp v h1 h2
    simp [ClefClient.Version, h1, h2]

/-- C2 witness: each of the seven operations against a concrete transport
double, including end-to-end scenario 1 where account_new answers the fixed
address and NewAccount returns exactly it. -/
theorem facade_returns_decoded_result_witness :
    ClefClient.NewAccount
        (fun _ _ => Except.ok ⟨"2.0",
          some (Json.str "0x0000000000000000000000000000000000000001"), none, 1⟩)
      = Except.ok "0x0000000000000000000000000000000000000001"
    ∧ ClefClient.ListAccounts
        (fun _ _ => Except.ok ⟨"2.0",
          some (Json.arr [Json.str "0x01", Json.str "0x02"]), none, 1⟩)
      = Except.ok ["0x01", "0x02"]
    ∧ ClefClient.SignTransaction
        (fun _ _ => Except.ok ⟨"2.0",
          some (Json.obj [("raw", Json.str "0xd4"),
            ("tx", Json.obj [("nonce", Json.str "0x0"), ("gasPrice", Json.str "0x4a"),
              ("gas", Json.str "0x52"), ("to", Json.str "0x02"), ("value", Json.str "0xde"),
              ("input", Json.str "0x"), ("v", Json.str "0x25"), ("r", Json.str "0x4f"),
              ("s", Json.str "0x6f"), ("hash", Json.str "0x12")])]), none, 1⟩)
        ⟨"0x01", "0x02", "0x52", "0x4a", "0xde", "0x0", "0x"⟩
      = Except.ok ⟨"0xd4", ⟨"0x0", "0x4a", "0x52", "0x02", "0xde", "0x", "0x25", "0x4f",
          "0x6f", "0x12"⟩⟩
    ∧ ClefClient.SignData
        (fun _ _ => Except.ok ⟨"2.0",
          some (Json.obj [("signature", Json.str "0x4f00")]), none, 1⟩)
        ⟨"0x01", "0x48"⟩
      = Except.ok ⟨"0x4f00"⟩
    ∧ ClefClient.SignTypedData
        (fun _ _ => Except.ok ⟨"2.0",
          some (Json.obj [("signature", Json.str "0x4f00")]), none, 1⟩)
        ⟨"0x01", Json.obj [], "V4"⟩
      = Except.ok ⟨"0x4f00"⟩
    ∧ ClefClient.EcRecover
        (fun _ _ => Except.ok ⟨"2.0",
          some (Json.obj [("address", Json.str "0x01")]), none, 1⟩)
        ⟨"0x48", "0x4f00"⟩
      = Except.ok ⟨"0x01"⟩
    ∧ ClefClient.Version
        (fun _ _ => Except.ok ⟨"2.0",
          some (Json.obj [("version", Json.str "6.1.0")]), none, 1⟩)
      = Except.ok ⟨"6.1.0"⟩ :=
  ⟨facade_returns_decoded_result.1 _ _ _ rfl rfl,
    facade_returns_decoded_result.2.1 _ _ _ rfl rfl,
    facade_returns_decoded_result.2.2.1 _ _ _ _ rfl rfl,
    facade_returns_decoded_result.2.2.2.1 _ _ _ _ rfl rfl,
    facade_returns_decoded_result.2.2.2.2.1 _ _ _ _ rfl rfl,
    facade_returns_decoded_result.2.2.2.2.2.1 _ _ _ _ rfl rfl,
    facade_returns_decoded_result.2.2.2.2.2.2 _ _ _ rfl rfl⟩

/-- C3: each facade operation hands the transport its fixed documented
method name (observed through a spy transport that fails with the method it
was given), and the envelope both transports construct carries exactly the
given method string under its method key, heading the exact bytes each
transport sends. -/
theorem facade_uses_fixed_method_names :
    ClefClient.NewAccount (fun m _ => Except.error m) = Except.error "account_new"
    ∧ ClefClient.ListAccounts (fun m _ => Except.error m) = Except.error "account_list"
    ∧ (∀ tx, ClefClient.SignTransaction (fun m _ => Except.error m) tx
        = Except.error "account_signTransaction")
    ∧ (∀ r, ClefClient.SignData (fun m _ => Except.error m) r
        = Except.error "account_signData")
    ∧ (∀ r, ClefClient.SignTypedData (fun m _ => Except.error m) r
        = Except.error "account_signTypedData")
    ∧ (∀ r, ClefClient.EcRecover (fun m _ => Except.error m) r
        = Except.error "account_ecRecover")
    ∧ ClefClient.Version (fun m _ => Except.error m) = Except.error "account_version"
    ∧ (∀ (method : String) (params : Json),
      (encodeRpcRequest ⟨"2.0", method, params, 1⟩).lookupKey "method"
        = some (Json.str method))
    ∧ (∀ (post : List Char → Except String httpPostOutcome) (method : String) (params : Json),
      (httpTransport.call post method params).1
        = jsonChars (encodeRpcRequest ⟨"2.0", method, params, 1⟩))
    ∧ (∀ (conn : ipcConn) (method : String) (params : Json),
      (ipcTransport.call conn method params).1
        = jsonChars (encodeRpcRequest ⟨"2.0", method, params, 1⟩) ++ ['\n']) :=
  ⟨rfl, rfl, fun _ => rfl, fun _ => rfl, fun _ => rfl, fun _ => rfl, rfl,
    fun _ _ => rfl, fun _ _ _ => rfl, fun _ _ _ => rfl⟩

/-- C4 counterexample: the params tag of rpcRequest carries no omitempty, so
the serialized request of the no-argument account_new call does contain a
params key, bound to JSON null — the bytes the HTTP transport posts contain
the member params colon null verbatim. -/
theorem params_key_present_cx :
    (encodeRpcRequest ⟨"2.0", "account_new", Json.null, 1⟩).lookupKey "params"
      = some Json.null
    ∧ "params" ∈ (encodeRpcRequest ⟨"2.0", "account_new", Json.null, 1⟩).keys
    ∧ "\"params\":null".data
        <:+: (httpTransport.call (fun _ => Except.error "") "account_new" Json.null).1 :=
  ⟨rfl, by decide, by decide⟩

/-- C4 amended: for every no-argument operation the facade passes a nil
params value, and the serialized request envelope then carries the params
member with value JSON null (rather than omitting the key). -/
theorem no_arg_params_serialized_null :
    ClefClient.NewAccount (fun _ p => Except.error (String.mk (jsonChars p)))
      = Except.error "null"
    ∧ ClefClient.ListAccounts (fun _ p => Except.error (String.mk (jsonChars p)))
      = Except.error "null"
    ∧ ClefClient.Version (fun _ p => Except.error (String.mk (jsonChars p)))
      = Except.error "null"
    ∧ (∀ (method : String),
      (encodeRpcRequest ⟨"2.0", method, Json.null, 1⟩).lookupKey "params"
        = some Json.null) :=
  ⟨rfl, rfl, rfl, fun _ => rfl⟩

/-- C5: marshaling a Transaction emits each of the five omitempty members
exactly when it is set: an unset member's key is absent from the serialized
object (never present as an empty string), and a set member appears with its
value. -/
theorem transaction_optional_fields_omitempty (t : Transaction) :
    ((t.Gas = "" → "gas" ∉ (encodeTransaction t).keys)
      ∧ (t.Gas ≠ "" → (encodeTransaction t).lookupKey "gas" = some (Json.str t.Gas)))
    ∧ ((t.GasPrice = "" → "gasPrice" ∉ (encodeTransaction t).keys)
      ∧ (t.GasPrice ≠ "" →
        (encodeTransaction t).lookupKey "gasPrice" = some (Json.str t.GasPrice)))
    ∧ ((t.Value = "" → "value" ∉ (encodeTransaction t).keys)
      ∧ (t.Value ≠ "" → (encodeTransaction t).lookupKey "value" = some (Json.str t.Value)))
    ∧ ((t.Nonce = "" → "nonce" ∉ (encodeTransaction t).keys)
      ∧ (t.Nonce ≠ "" → (encodeTransaction t).lookupKey "nonce" = some (Json.str t.Nonce)))
    ∧ ((t.Data = "" → "data" ∉ (encodeTransaction t).keys)
      ∧ (t.Data ≠ "" → (encodeTransaction t).lookupKey "data" = some (Json.str t.Data))) := by
  by_cases h1 : t.Gas = "" <;> by_cases h2 : t.GasPrice = "" <;>
    by_cases h3 : t.Value = "" <;> by_cases h4 : t.Nonce = "" <;> by_cases h5 : t.Data = "" <;>
    simp [encodeTransaction, optField, Json.keys, Json.lookupKey, jlookup, h1, h2, h3, h4, h5]

/-- C5 witness: a transaction with every optional member unset serializes
with none of their keys, and one with every member set serializes all of
them with their values. -/
theorem transaction_optional_fields_omitempty_witness :
    ("gas" ∉ (encodeTransaction ⟨"0xa", "0xb", "", "", "", "", ""⟩).keys
      ∧ "gasPrice" ∉ (encodeTransaction ⟨"0xa", "0xb", "", "", "", "", ""⟩).keys
      ∧ "value" ∉ (encodeTransaction ⟨"0xa", "0xb", "", "", "", "", ""⟩).keys
      ∧ "nonce" ∉ (encodeTransaction ⟨"0xa", "0xb", "", "", "", "", ""⟩).keys
      ∧ "data" ∉ (encodeTransaction ⟨"0xa", "0xb", "", "", "", "", ""⟩).keys)
    ∧ ((encodeTransaction ⟨"0xa", "0xb", "0x1", "0x2", "0x3", "0x4", "0x5"⟩).lookupKey "gas"
        = some (Json.str "0x1")
      ∧ (encodeTransaction ⟨"0xa", "0xb", "0x1", "0x2", "0x3", "0x4", "0x5"⟩).lookupKey "data"
        = some (Json.str "0x5")) :=
  ⟨⟨(transaction_optional_fields_omitempty ⟨"0xa", "0xb", "", "", "", "", ""⟩).1.1 rfl,
    (transaction_optional_fields_omitempty ⟨"0xa", "0xb", "", "", "", "", ""⟩).2.1.1 rfl,
    (transaction_optional_fields_omitempty ⟨"0xa", "0xb", "", "", "", "", ""⟩).2.2.1.1 rfl,
    (transaction_optional_fields_omitempty ⟨"0xa", "0xb", "", "", "", "", ""⟩).2.2.2.1.1 rfl,
    (transaction_optional_fields_omitempty ⟨"0xa", "0xb", "", "", "", "", ""⟩).2.2.2.2.1 rfl⟩,
   ⟨(transaction_optional_fields_omitempty
      ⟨"0xa", "0xb", "0x1", "0x2", "0x3", "0x4", "0x5"⟩).1.2 (by decide),
    (transaction_optional_fields_omitempty
      ⟨"0xa", "0xb", "0x1", "0x2", "0x3", "0x4", "0x5"⟩).2.2.2.2.2 (by decide)⟩⟩

/-- C6: on every stream-transport call the bytes handed to the connection
write are the JSON-encoded request envelope followed by exactly one newline
byte: the whole written sequence contains the newline character exactly
once. -/
theorem ipc_request_single_newline (conn : ipcConn) (method : String) (params : Json) :
    (ipcTransport.call conn method params).1
      = jsonChars (encodeRpcRequest ⟨"2.0", method, params, 1⟩) ++ ['\n']
    ∧ ((ipcTransport.call conn method params).1).count '\n' = 1 := by
  refine ⟨rfl, ?_⟩
  show (jsonChars (encodeRpcRequest ⟨"2.0", method, params, 1⟩) ++ ['\n']).count '\n' = 1
  rw [List.count_append, List.count_eq_zero.mpr (jsonChars_no_nl _)]
  rfl

/-- C7: JSON-encoding a request envelope and decoding the result back into a
request envelope is the identity: version tag, method, params and id are all
preserved. -/
theorem rpcRequest_roundtrip (r : rpcRequest) :
    decodeRpcRequest (encodeRpcRequest r) = Except.ok r := rfl

/-- C9: the HTTP transport never reads the response status code — rewriting
the status of every POST outcome arbitrarily leaves the outcome of call
unchanged — and a body decoding to a well-formed envelope with a null error
record makes call succeed with that envelope even under status 500. -/
theorem http_status_code_ignored :
    (∀ (post : List Char → Except String httpPostOutcome)
        (g : List Char → Nat) (method : String) (params : Json),
      (httpTransport.call
          (fun b => match post b with
            | Except.error e => Except.error e
            | Except.ok out => Except.ok ⟨g b, out.BodyDecode⟩) method params).2
        = (httpTransport.call post method params).2)
    ∧ (∀ (resp : rpcResponse) (method : String) (params : Json),
      resp.Error = none →
      (httpTransport.call (fun _ => Except.ok ⟨500, Except.ok resp⟩) method params).2
        = Except.ok resp) := by
  constructor
  · intro post g method params
    dsimp only [httpTransport.call]
    cases hp : post (jsonChars (encodeRpcRequest ⟨"2.0", method, params, 1⟩)) <;> simp [hp]
  · intro resp method params h
    simp [httpTransport.call, h]

/-- C9 witness: a status-500 response whose body is a well-formed envelope
with a null error record still succeeds and returns that envelope. -/
theorem http_status_code_ignored_witness :
    (httpTransport.call
        (fun _ => Except.ok ⟨500, Except.ok ⟨"2.0", some (Json.str "0x01"), none, 1⟩⟩)
        "account_new" Json.null).2
      = Except.ok ⟨"2.0", some (Json.str "0x01"), none, 1⟩ :=
  http_status_code_ignored.2 ⟨"2.0", some (Json.str "0x01"), none, 1⟩ "account_new"
    Json.null rfl

/-- C10: the unexported rpcClient.call and httpTransport.call are
extensionally equal: same posted bytes for every method and params, and the
same response-or-error for every remote behavior. -/
theorem rpcClient_call_eq_httpTransport_call
    (post : List Char → Except String httpPostOutcome) (method : String) (params : Json) :
    rpcClient.call post method params = httpTransport.call post method params := rfl

end Clef
